import Mathlib

/-
Verification of the MultilingualLibriSpeech dataset loader
(src/AudioDatasets/multilingual_librispeech.py).

Strings are modelled as lists of characters; files as association lists from
path keys to raw contents.  External collaborators (audio codec, phonemizer,
torch serialization) are modelled as opaque payloads or function parameters,
as the spec designates them opaque.
-/

/-- Python strings, modelled as lists of characters. -/
abbrev Str := List Char

/-- The Python exception kinds the translated code can raise. -/
inductive PyError where
  | valueError
  | keyError
  | fileNotFoundError
  | nameError
  | indexError
deriving DecidableEq

deriving instance DecidableEq for Except

/-- Python `s.split(sep)` for a one-character separator: splits on every
occurrence; the empty string yields `[""]`. -/
def splitOnChar (sep : Char) : Str → List Str
  | [] => [[]]
  | c :: cs =>
    match splitOnChar sep cs with
    | [] => [[]]
    | l :: ls => if c = sep then [] :: l :: ls else (c :: l) :: ls

/-- Python `s.split(sep, 1)`: splits at the first occurrence only. -/
def splitFirstOnChar (sep : Char) : Str → List Str
  | [] => [[]]
  | c :: cs =>
    if c = sep then [[], cs]
    else
      match splitFirstOnChar sep cs with
      | [] => [[]]
      | l :: ls => (c :: l) :: ls

/-- Python `file.readlines()` / line iteration: each line keeps its trailing
newline; a final unterminated line is kept as is. -/
def readlines : Str → List Str
  | [] => []
  | c :: cs =>
    match readlines cs with
    | [] => [[c]]
    | l :: ls => if c = '\n' then [c] :: l :: ls else (c :: l) :: ls

/-- The whitespace characters Python `str.strip` removes (ASCII part, which is
all the corpus data contains). -/
def isPySpace (c : Char) : Bool :=
  c = ' ' || c = '\t' || c = '\n' || c = '\r' || c = '\x0b' || c = '\x0c'

/-- Python `str.strip()`. -/
def pyStrip (s : Str) : Str :=
  ((s.dropWhile isPySpace).reverse.dropWhile isPySpace).reverse

/-- Python `str.lower()` (ASCII). -/
def pyLower (s : Str) : Str := s.map Char.toLower

/-- Lookup in an association list (Python dict access). -/
def alistGet {κ β : Type} [DecidableEq κ] : List (κ × β) → κ → Option β
  | [], _ => none
  | p :: ps, k => if p.1 = k then some p.2 else alistGet ps k

/-- Python dict assignment `d[k] = v`: replaces the value at an existing key
in place, otherwise appends the binding at the end. -/
def alistInsert {κ β : Type} [DecidableEq κ] : List (κ × β) → κ → β → List (κ × β)
  | [], k, v => [(k, v)]
  | p :: ps, k, v => if p.1 = k then (k, v) :: ps else p :: alistInsert ps k v

/-- `open(f, 'a'); f.write(s)`: appends to an existing file's contents,
creating the file when absent. -/
def appendToFile {κ : Type} [DecidableEq κ] (d : List (κ × Str)) (k : κ) (s : Str) :
    List (κ × Str) :=
  match alistGet d k with
  | some old => alistInsert d k (old ++ s)
  | none => d ++ [(k, s)]

/-- One file found under `audio/<speaker>/<chapter>/`: its two directory
components, its basename, and the opaque payload `torchaudio.load` would
decode it to (waveform handle and sample rate). -/
structure AudioFile where
  speaker : Str
  chapter : Str
  name : Str
  wave : Nat
  sr : Nat
deriving DecidableEq

/-- Path of a file inside a chapter directory:
(speaker directory, chapter directory, basename). -/
abbrev FileKey := Str × Str × Str

/-- The dict returned by `load_librispeech_item` (lines 291-299).  The
waveform is the opaque payload of the decoded audio file. -/
structure Batch where
  path : Str
  waveform : Nat
  sample_rate : Nat
  utterance : Str
  speaker_id : Int
  chapter_id : Int
  utterance_id : Int
deriving DecidableEq

/-- Snapshot of one corpus split directory `<root>/<language>/<split>/`:
the bulk `transcripts.txt`, the files under `audio/*/*/*` (audio payloads,
`.txt` label files, cached `.pt` records), and the limited-supervision
handle files. -/
structure FS where
  transcripts : Str
  audioFiles : List AudioFile
  txtFiles : List (FileKey × Str)
  ptFiles : List (FileKey × Batch)
  handles9 : Str
  handles1 : List (Str × Str)
deriving DecidableEq

/-- `os.path.basename(audio_file)[:-5]` (line 308): the basename with its last
five characters (".opus") sliced off. -/
def labelId (name : Str) : Str := name.take (name.length - 5)

/-- `speaker_id + '_' + chapter_id + '.trans.txt'` (lines 329-330). -/
def transName (sp ch : Str) : Str := sp ++ ("_").toList ++ ch ++ (".trans.txt").toList

/-- `speaker_id + '_' + chapter_id + '.ipa_trans.txt'` (lines 319-320). -/
def ipaName (sp ch : Str) : Str := sp ++ ("_").toList ++ ch ++ (".ipa_trans.txt").toList

/-- `_write_labels` (lines 304-334).  The audio file enters as its basename
(only `os.path.basename` of it is ever used); `phonemize` stands for the
external phonemizer collaborator.  Deriving the speaker and chapter from the
basename can raise ValueError (unpacking into three names), and the dict
lookup can raise KeyError. -/
def _write_labels (audioName : Str) (labels : List (Str × Str)) (IPA : Bool)
    (phonemize : Str → Str) (fs : FS) : Except PyError FS :=
  let label_id := labelId audioName
  match splitOnChar '_' label_id with
  | [speaker_id, chapter_id, _u] =>
    match alistGet labels label_id with
    | none => .error .keyError
    | some utterance =>
      let fs1 :=
        if IPA then
          let ipa_sequence := phonemize (pyLower utterance)
          let ipa_output := label_id ++ '\t' :: ipa_sequence
          { fs with txtFiles := (appendToFile fs.txtFiles
              (speaker_id, chapter_id, ipaName speaker_id chapter_id)
              (ipa_output ++ ['\n'])) }
        else fs
      let txt_output := label_id ++ '\t' :: utterance
      .ok { fs1 with txtFiles := (appendToFile fs1.txtFiles
          (speaker_id, chapter_id, transName speaker_id chapter_id) txt_output) }
  | _ => .error .valueError

/-- Reading `transcripts.txt` into the `labels` dict (lines 225-231): each
line is split on every tab and unpacked into exactly two names; any other
shape raises ValueError and aborts the whole extraction. -/
def readLabelLines : List (Str × Str) → List Str → Except PyError (List (Str × Str))
  | d, [] => .ok d
  | d, line :: rest =>
    match splitOnChar '\t' line with
    | [utterance_id, text] => readLabelLines (alistInsert d utterance_id text) rest
    | _ => .error .valueError

/-- The `labels` dict built from the raw contents of `transcripts.txt`. -/
def readLabels (contents : Str) : Except PyError (List (Str × Str)) :=
  readLabelLines [] (readlines contents)

/-- The sequential loop of `extract_labels` (lines 237-238): `_write_labels`
on every enumerated file in order; an exception aborts the loop. -/
def runSeq (labels : List (Str × Str)) (IPA : Bool) (phonemize : Str → Str) :
    List Str → FS → Except PyError FS
  | [], fs => .ok fs
  | f :: rest, fs =>
    match _write_labels f labels IPA phonemize fs with
    | .ok fs1 => runSeq labels IPA phonemize rest fs1
    | .error e => .error e

/-- `glob(root/'audio'/'*'/'*'/'*')` (line 234): the basenames of every file
at depth three under `audio`, in enumeration order (glob order is
OS-dependent; the model uses the snapshot's listing order). -/
def globChapterFiles (fs : FS) : List Str :=
  fs.audioFiles.map AudioFile.name ++ fs.txtFiles.map (fun p => p.1.2.2)
    ++ fs.ptFiles.map (fun p => p.1.2.2)

/-- `extract_labels` after the existing-labels guard (lines 224-247). -/
def extractLabelsBody (fs : FS) (num_threads : Int) (IPA : Bool)
    (phonemize : Str → Str) : Except PyError FS :=
  match readLabels fs.transcripts with
  | .error e => .error e
  | .ok labels =>
    let audio_list := globChapterFiles fs
    if num_threads = 0 then runSeq labels IPA phonemize audio_list fs
    else if num_threads > 0 then
      -- Line 242: pool.apply_async(self._write_labels, args=(audio_file, labels, root))
      -- passes three positional arguments to a method that requires four (`IPA` is
      -- missing), so every worker raises TypeError before its body runs.  The
      -- AsyncResult is never read (the r.get() on line 243 is commented out), so the
      -- exceptions are discarded, pool.close()/pool.join() complete, and no file is
      -- ever touched.
      .ok fs
    else .error .valueError

/-- `extract_labels` (lines 209-247).  `decision` is the interactive answer to
the overwrite prompt; it is only consulted when `.txt` label files already
exist under `audio` (line 212's glob). -/
def extract_labels (fs : FS) (decision : Str) (num_threads : Int) (IPA : Bool)
    (phonemize : Str → Str) : Except PyError FS :=
  if fs.txtFiles.isEmpty then extractLabelsBody fs num_threads IPA phonemize
  else if pyLower decision = ("no").toList then .ok fs
  else if pyLower decision = ("yes").toList then
    extractLabelsBody { fs with txtFiles := [] } num_threads IPA phonemize
  else .error .valueError

/-- The transcript scan of `load_librispeech_item` (lines 280-289): iterate
the lines of the chapter transcript file; each line is stripped and split on
the first tab into exactly two names (ValueError otherwise); the first line
whose identifier equals `fileid` supplies the utterance.  When no line
matches, line 289 executes
`raise FileNotFoundError("Translation not found for " + fileid_audio)`,
but `fileid_audio` is bound nowhere in the function (the existing variable is
`file_audio`), so evaluating the message raises NameError instead. -/
def scanTranscript (fileid : Str) : List Str → Except PyError Str
  | [] => .error .nameError
  | line :: rest =>
    match splitFirstOnChar '\t' (pyStrip line) with
    | [fileid_text, utterance] =>
      if fileid = fileid_text then .ok utterance else scanTranscript fileid rest
    | _ => .error .valueError

/-- Decimal digit accumulator for `pyInt`. -/
def digitsToNat : Str → Option Nat → Option Nat
  | [], acc => acc
  | c :: cs, acc =>
    if c.isDigit then digitsToNat cs (some ((acc.getD 0) * 10 + (c.toNat - 48)))
    else none

/-- Python `int(s)` restricted to the corpus identifier alphabet: an optional
minus sign followed by decimal digits (Python additionally strips whitespace
and accepts a plus sign and underscore grouping, which identifier components
never contain). -/
def pyInt (s : Str) : Except PyError Int :=
  match s with
  | '-' :: rest =>
    match digitsToNat rest none with
    | some n => .ok (-(n : Int))
    | none => .error .valueError
  | _ =>
    match digitsToNat s none with
    | some n => .ok (n : Int)
    | none => .error .valueError

/-- Locating the audio file `audio/<speaker>/<chapter>/<basename>` for
`torchaudio.load` (line 274); the codec itself is opaque and returns the
file's payload. -/
def findAudio (fs : FS) (sp ch fname : Str) : Option AudioFile :=
  fs.audioFiles.find? fun a =>
    decide (a.speaker = sp) && decide (a.chapter = ch) && decide (a.name = fname)

/-- `os.path.join(path, 'audio', speaker_id, chapter_id, name)` with the
constant split root elided. -/
def audioPath (sp ch fname : Str) : Str :=
  ("audio/").toList ++ sp ++ '/' :: ch ++ '/' :: fname

/-- The two dataset flags consulted by `load_librispeech_item`. -/
structure Config where
  use_cache : Bool
  refresh : Bool
deriving DecidableEq

/-- `load_librispeech_item` (lines 254-302), with the default
`_ext_txt='.trans.txt'` and `_ext_audio='.opus'`.  The result pairs the
returned record with the (possibly cache-updated) filesystem; the Boolean
records whether the audio decoder (`torchaudio.load`, line 274) was invoked.
`torch.load`/`torch.save` are the opaque cache collaborator, modelled as
lookup and insertion in the `.pt` file map. -/
def load_librispeech_item (cfg : Config) (fs : FS) (fileid : Str) :
    (Except PyError (Batch × FS)) × Bool :=
  match splitOnChar '_' fileid with
  | [speaker_id, chapter_id, utterance_id] =>
    let trans_key : FileKey := (speaker_id, chapter_id, transName speaker_id chapter_id)
    let saved_name := fileid ++ (".pt").toList
    let pt_key : FileKey := (speaker_id, chapter_id, saved_name)
    if cfg.use_cache && !cfg.refresh then
      match alistGet fs.ptFiles pt_key with
      | some b => (.ok (b, fs), false)
      | none => (.error .fileNotFoundError, false)
    else
      let file_audio := fileid ++ (".opus").toList
      match findAudio fs speaker_id chapter_id file_audio with
      | none => (.error .fileNotFoundError, true)
      | some af =>
        match alistGet fs.txtFiles trans_key with
        | none => (.error .fileNotFoundError, true)
        | some contents =>
          match scanTranscript fileid (readlines contents) with
          | .error e => (.error e, true)
          | .ok utterance =>
            match pyInt speaker_id, pyInt chapter_id, pyInt utterance_id with
            | .ok s, .ok c, .ok u =>
              let batch : Batch :=
                { path := audioPath speaker_id chapter_id file_audio
                  waveform := af.wave
                  sample_rate := af.sr
                  utterance := utterance
                  speaker_id := s
                  chapter_id := c
                  utterance_id := u }
              if cfg.use_cache then
                (.ok (batch, { fs with ptFiles := (alistInsert fs.ptFiles pt_key batch) }), true)
              else (.ok (batch, fs), true)
            | _, _, _ => (.error .valueError, true)
  | _ => (.error .valueError, false)

/-- The effective index of Python `l[n]`: negative indices count from the
end. -/
def pyIndex (n : Int) (len : Nat) : Int := if n < 0 then n + len else n

/-- Python list subscription `l[n]`: IndexError outside `[-len, len)`. -/
def pyListGet {α : Type} (l : List α) (n : Int) : Except PyError α :=
  if h : 0 ≤ pyIndex n l.length ∧ pyIndex n l.length < (l.length : Int) then
    .ok (l.get ⟨(pyIndex n l.length).toNat, by
      rcases h with ⟨h1, h2⟩
      omega⟩)
  else .error .indexError

/-- `__getitem__` (lines 136-146): subscript the walker, then assemble. -/
def __getitem__ (cfg : Config) (fs : FS) (walker : List Str) (n : Int) :
    (Except PyError (Batch × FS)) × Bool :=
  match pyListGet walker n with
  | .ok fileid => load_librispeech_item cfg fs fileid
  | .error e => (.error e, false)

/-- The `one_hr` constructor argument: either a Python bool or an int. -/
inductive PyOneHr where
  | pybool (b : Bool)
  | pyint (n : Int)
deriving DecidableEq

/-- Python truthiness of `one_hr` (`if one_hr:`, line 128). -/
def pyTruthy : PyOneHr → Bool
  | .pybool b => b
  | .pyint n => decide (n ≠ 0)

/-- Python `one_hr == False` (line 118): `False == False` and `0 == False`. -/
def pyEqFalse : PyOneHr → Bool
  | .pybool b => !b
  | .pyint n => decide (n = 0)

/-- `isinstance(one_hr, bool)` (line 118). -/
def isPyBool : PyOneHr → Bool
  | .pybool _ => true
  | .pyint _ => false

/-- Python `str(one_hr)` (line 124). -/
def pyStr : PyOneHr → Str
  | .pybool true => ("True").toList
  | .pybool false => ("False").toList
  | .pyint n => (toString n).toList

/-- Python `str.splitlines()` on file contents read as a whole (lines
121, 125): the lines without their terminators. -/
def pySplitlines (s : Str) : List Str :=
  (readlines s).map fun l => if l.getLast? = some '\n' then l.dropLast else l

/-- `pathlib.PurePath.stem` (line 134): the basename without its last
suffix; a name whose only dot is leading, or that has no dot, is its own
stem. -/
def stem (s : Str) : Str :=
  match s.reverse.dropWhile (fun c => !(decide (c = '.'))) with
  | [] => s
  | _ :: rest => if rest = [] then s else rest.reverse

/-- Whether `suf` is a suffix of `s` (the `'audio/*/*/*' + self._ext_audio`
glob filter). -/
def strEndsWith (s suf : Str) : Bool := decide (s.reverse.take suf.length = suf.reverse)

/-- The stems of the files matched by `Path(self._path).glob('audio/*/*/*' +
'.opus')` (line 134), in enumeration order. -/
def opusStems (fs : FS) : List Str :=
  (fs.audioFiles.filter fun a => strEndsWith a.name ((".opus").toList)).map
    fun a => stem a.name

/-- `sorted(str(p.stem) for p in ...)` (line 134): Python `sorted` returns
the ascending permutation for the lexicographic string order, modelled by
insertion sort (the sorted permutation is unique, so any correct sort is the
same function). -/
def fullWalker (fs : FS) : List Str :=
  List.insertionSort (fun a b : Str => a ≤ b) (opusStems fs)

/-- The `_walker` selection of `__init__` (lines 117-134): low-resource mode
reads the relevant handles file verbatim; full mode globs and sorts; a truthy
`one_hr` with `low_resource=False` raises ValueError (line 129). -/
def chooseWalker (low_resource : Bool) (one_hr : PyOneHr) (fs : FS) :
    Except PyError (List Str) :=
  if low_resource then
    if pyEqFalse one_hr && isPyBool one_hr then .ok (pySplitlines fs.handles9)
    else
      match alistGet fs.handles1 (pyStr one_hr) with
      | some contents => .ok (pySplitlines contents)
      | none => .error .fileNotFoundError
  else
    if pyTruthy one_hr then .error .valueError
    else .ok (fullWalker fs)

/-! Derived notions used to state the label-splitting properties. -/

/-- The `identifier<TAB>text` line `_write_labels` appends for one audio
file: the sliced basename, a tab, and the bulk mapping's text for it. -/
def lineFor (labels : List (Str × Str)) (f : Str) : Str :=
  labelId f ++ '\t' :: ((alistGet labels (labelId f)).getD [])

/-- The (speaker, chapter) pair `_write_labels` derives from a basename, when
the sliced name has exactly three underscore-separated parts. -/
def fileChapterOf (f : Str) : Option (Str × Str) :=
  match splitOnChar '_' (labelId f) with
  | [s, c, _u] => some (s, c)
  | _ => none

/-- Whether a basename belongs to chapter `(sp, ch)` in `_write_labels`'s
sense. -/
def inChapter (sp ch : Str) (f : Str) : Bool :=
  decide (fileChapterOf f = some (sp, ch))

/-- The concatenation of the lines `_write_labels` appends to chapter
`(sp, ch)`'s transcript file when processing `files` in order. -/
def chapterConcat (labels : List (Str × Str)) (sp ch : Str) : List Str → Str
  | [] => []
  | f :: rest =>
    if inChapter sp ch f then lineFor labels f ++ chapterConcat labels sp ch rest
    else chapterConcat labels sp ch rest

/-- A basename `_write_labels` processes without an exception, whose bulk
text is a single newline-terminated line (the well-formedness the bulk
`identifier<TAB>text`-per-line format prescribes). -/
def goodFile (labels : List (Str × Str)) (f : Str) : Bool :=
  (fileChapterOf f).isSome &&
    (match alistGet labels (labelId f) with
     | some t =>
       decide (t ≠ []) && decide (t.getLast? = some '\n') &&
         decide ('\n' ∉ t.dropLast) && decide ('\n' ∉ labelId f)
     | none => false)

/-- The transcript-file key `_write_labels` appends to for a basename. -/
def chapKey (f : Str) : FileKey :=
  match fileChapterOf f with
  | some p => (p.1, p.2, transName p.1 p.2)
  | none => ([], [], [])

/-- Contents of a file after appending `s`, starting from optional previous
contents (`none` = the file did not exist, and is only created when something
is appended). -/
def mergeOpt (o : Option Str) (s : Str) : Option Str :=
  match o with
  | some old => some (old ++ s)
  | none => if s = [] then none else some s

/-! Concrete directory snapshots used as evaluation inputs and witnesses. -/

/-- One-file split: bulk transcript `1_1_0<TAB>hello`, audio
`audio/1/1/1_1_0.opus`. -/
def fsC1 : FS :=
  { transcripts := ("1_1_0\thello\n").toList
    audioFiles := [⟨("1").toList, ("1").toList, ("1_1_0.opus").toList, 3, 16000⟩]
    txtFiles := []
    ptFiles := []
    handles9 := []
    handles1 := [] }

/-- `fsC1` after the sequential splitter: chapter (1,1) holds the single
transcript line. -/
def fsC1seq : FS :=
  { fsC1 with txtFiles :=
      [((("1").toList, ("1").toList, transName ("1").toList ("1").toList),
        ("1_1_0\thello\n").toList)] }

/-- Split whose chapter transcript file has no line matching `1_1_0`. -/
def fsC2 : FS :=
  { transcripts := []
    audioFiles := [⟨("1").toList, ("1").toList, ("1_1_0.opus").toList, 5, 48000⟩]
    txtFiles :=
      [((("1").toList, ("1").toList, transName ("1").toList ("1").toList),
        ("2_2_2\thi\n").toList)]
    ptFiles := []
    handles9 := []
    handles1 := [] }

/-- Split with a decodable audio file and its matching transcript line. -/
def fsC3 : FS :=
  { transcripts := []
    audioFiles := [⟨("1").toList, ("1").toList, ("1_1_0.opus").toList, 7, 16000⟩]
    txtFiles :=
      [((("1").toList, ("1").toList, transName ("1").toList ("1").toList),
        ("1_1_0\thello\n").toList)]
    ptFiles := []
    handles9 := []
    handles1 := [] }

/-- The record assembled from `fsC3` for identifier `1_1_0`. -/
def bC3 : Batch :=
  { path := ("audio/1/1/1_1_0.opus").toList
    waveform := 7
    sample_rate := 16000
    utterance := ("hello").toList
    speaker_id := 1
    chapter_id := 1
    utterance_id := 0 }

/-- `fsC3` after the first assembly cached its record. -/
def fsC3c : FS :=
  { fsC3 with ptFiles := [((("1").toList, ("1").toList, ("1_1_0.pt").toList), bC3)] }

/-- Three-file chapter (1,1) with bulk entries for all three. -/
def fsC4 : FS :=
  { transcripts := ("1_1_0\tfoo\n1_1_1\tbar\n1_1_2\tbaz\n").toList
    audioFiles :=
      [⟨("1").toList, ("1").toList, ("1_1_0.opus").toList, 1, 16000⟩,
       ⟨("1").toList, ("1").toList, ("1_1_1.opus").toList, 2, 16000⟩,
       ⟨("1").toList, ("1").toList, ("1_1_2.opus").toList, 3, 16000⟩]
    txtFiles := []
    ptFiles := []
    handles9 := []
    handles1 := [] }

/-- The bulk mapping `extract_labels` builds from `fsC4.transcripts`. -/
def labelsC4 : List (Str × Str) :=
  [(("1_1_0").toList, ("foo\n").toList),
   (("1_1_1").toList, ("bar\n").toList),
   (("1_1_2").toList, ("baz\n").toList)]

/-- An empty split directory. -/
def fsC5 : FS :=
  { transcripts := []
    audioFiles := []
    txtFiles := []
    ptFiles := []
    handles9 := []
    handles1 := [] }

/-- Two-file snapshot, and the same snapshot enumerated in the other order. -/
def fsC6a : FS :=
  { transcripts := []
    audioFiles :=
      [⟨("1").toList, ("1").toList, ("1_1_0.opus").toList, 1, 16000⟩,
       ⟨("1").toList, ("1").toList, ("1_1_1.opus").toList, 2, 16000⟩]
    txtFiles := []
    ptFiles := []
    handles9 := []
    handles1 := [] }

/-- `fsC6a` with the glob enumeration order reversed. -/
def fsC6b : FS :=
  { fsC6a with audioFiles :=
      [⟨("1").toList, ("1").toList, ("1_1_1.opus").toList, 2, 16000⟩,
       ⟨("1").toList, ("1").toList, ("1_1_0.opus").toList, 1, 16000⟩] }

/-- Split with one complete sample, for the positional-lookup evaluation. -/
def fsC7 : FS :=
  { transcripts := []
    audioFiles := [⟨("1").toList, ("1").toList, ("1_1_0.opus").toList, 9, 22050⟩]
    txtFiles :=
      [((("1").toList, ("1").toList, transName ("1").toList ("1").toList),
        ("1_1_0\tworld\n").toList)]
    ptFiles := []
    handles9 := []
    handles1 := [] }

/-- The record assembled from `fsC7` for identifier `1_1_0`. -/
def bC7 : Batch :=
  { path := ("audio/1/1/1_1_0.opus").toList
    waveform := 9
    sample_rate := 22050
    utterance := ("world").toList
    speaker_id := 1
    chapter_id := 1
    utterance_id := 0 }

/-- Split that already carries a per-chapter label file. -/
def fsC8 : FS :=
  { transcripts := ("1_1_0\thello\n").toList
    audioFiles := [⟨("1").toList, ("1").toList, ("1_1_0.opus").toList, 3, 16000⟩]
    txtFiles :=
      [((("1").toList, ("1").toList, transName ("1").toList ("1").toList),
        ("1_1_0\thello\n").toList)]
    ptFiles := []
    handles9 := []
    handles1 := [] }

/-- Split with audio and transcript but an empty cache. -/
def fsC9 : FS :=
  { transcripts := []
    audioFiles := [⟨("1").toList, ("1").toList, ("1_1_0.opus").toList, 4, 16000⟩]
    txtFiles :=
      [((("1").toList, ("1").toList, transName ("1").toList ("1").toList),
        ("1_1_0\they\n").toList)]
    ptFiles := []
    handles9 := []
    handles1 := [] }

/-! Association-list lemmas used by the cache and label-splitting proofs. -/

theorem alistGet_alistInsert_self {κ β : Type} [DecidableEq κ]
    (d : List (κ × β)) (k : κ) (v : β) :
    alistGet (alistInsert d k v) k = some v := by
  induction d with
  | nil => simp [alistInsert, alistGet]
  | cons p ps ih =>
    by_cases h : p.1 = k
    · simp [alistInsert, alistGet, h]
    · simp [alistInsert, alistGet, h, ih]

theorem alistGet_alistInsert_ne {κ β : Type} [DecidableEq κ]
    (d : List (κ × β)) (k k' : κ) (v : β) (hne : k' ≠ k) :
    alistGet (alistInsert d k v) k' = alistGet d k' := by
  have hne' : k ≠ k' := Ne.symm hne
  induction d with
  | nil => simp [alistInsert, alistGet, hne']
  | cons p ps ih =>
    by_cases h : p.1 = k
    · simp [alistInsert, alistGet, h, hne']
    · simp [alistInsert, alistGet, h, ih]

theorem alistGet_append {κ β : Type} [DecidableEq κ]
    (d e : List (κ × β)) (k : κ) :
    alistGet (d ++ e) k =
      (match alistGet d k with
       | some v => some v
       | none => alistGet e k) := by
  induction d with
  | nil => simp [alistGet]
  | cons p ps ih =>
    by_cases h : p.1 = k
    · simp [alistGet, h]
    · simp [alistGet, h, ih]

theorem alistGet_appendToFile_self {κ : Type} [DecidableEq κ]
    (d : List (κ × Str)) (k : κ) (s : Str) :
    alistGet (appendToFile d k s) k = some ((alistGet d k).getD [] ++ s) := by
  unfold appendToFile
  cases h : alistGet d k with
  | some old => simp [alistGet_alistInsert_self, h]
  | none => simp [alistGet_append, h, alistGet]

theorem alistGet_appendToFile_ne {κ : Type} [DecidableEq κ]
    (d : List (κ × Str)) (k k' : κ) (s : Str) (hne : k' ≠ k) :
    alistGet (appendToFile d k s) k' = alistGet d k' := by
  unfold appendToFile
  cases h : alistGet d k with
  | some old => simp [alistGet_alistInsert_ne _ _ _ _ hne]
  | none =>
    have hne' : k ≠ k' := Ne.symm hne
    rw [alistGet_append]
    cases h' : alistGet d k' with
    | some v => simp
    | none => simp [alistGet, hne']


/-! Claim theorems. -/

/-- C1: the code diverges from the parallel/sequential equivalence.  On a
one-file split, sequential mode (`num_threads = 0`) writes the chapter
transcript line, while parallel mode (`num_threads = 1`) leaves the split
untouched: every `apply_async` call passes three positional arguments to the
four-parameter `_write_labels` (the `IPA` argument is missing), the workers'
TypeErrors are never surfaced because the `r.get()` call is commented out,
and no label file is created. -/
theorem C1_parallel_differs_from_sequential :
    extract_labels fsC1 [] 0 false id = .ok fsC1seq ∧
    extract_labels fsC1 [] 1 false id = .ok fsC1 ∧
    fsC1seq.txtFiles ≠ fsC1.txtFiles := by decide

/-- C2: assembling identifier `1_1_0` when its chapter transcript file
exists but has no matching line scans to end of file and then raises
NameError — line 289's `raise FileNotFoundError(... + fileid_audio)`
references the undefined name `fileid_audio` — instead of the
transcript-not-found error the spec prescribes. -/
theorem C2_no_match_raises_name_error :
    load_librispeech_item { use_cache := false, refresh := false } fsC2
      (("1_1_0").toList) = (.error .nameError, true) := by decide

/-- C5 counterexample: constructing the index with `low_resource = False` and
the fold selector `one_hr = 0` — a fold selector that is not `False` — does
not raise: `if one_hr:` on line 128 treats the integer `0` as falsy and full
enumeration proceeds. -/
theorem C5_fold_zero_accepted :
    chooseWalker false (PyOneHr.pyint 0) fsC5 = .ok [] := by decide

/-- C5 amended: constructing the index with `low_resource = False` and a
truthy fold selector (a nonzero integer or `True`) raises ValueError at
construction time; the fold selector `0`, though a valid 1-hour fold choice,
is accepted silently. -/
theorem C5_truthy_selector_rejected (one_hr : PyOneHr) (fs : FS)
    (h : pyTruthy one_hr = true) :
    chooseWalker false one_hr fs = .error .valueError := by
  simp [chooseWalker, h]

/-- C5 witness: fold selector 3 with `low_resource = False` is rejected. -/
theorem C5_truthy_selector_rejected_witness :
    chooseWalker false (PyOneHr.pyint 3) fsC5 = .error .valueError :=
  C5_truthy_selector_rejected (PyOneHr.pyint 3) fsC5 (by decide)

/-- C7 counterexample: on a one-sample index, `get(-1)` — an index outside
`0 <= n < count()` — returns a full sample record instead of raising: Python
list subscription wraps negative indices. -/
theorem C7_negative_index_returns_record :
    __getitem__ { use_cache := false, refresh := false } fsC7
      [("1_1_0").toList] (-1) = (.ok (bC7, fsC7), true) := by decide

/-- C7 amended: `get(n)` raises IndexError exactly for `n >= count()` and
`n < -count()` (in particular for `n = count()`); a negative `n` with
`-count() <= n < 0` wraps around to position `count() + n` and returns that
sample's record. -/
theorem C7_out_of_range_raises (cfg : Config) (fs : FS) (walker : List Str)
    (n : Int) (h : n < -(walker.length : Int) ∨ (walker.length : Int) ≤ n) :
    __getitem__ cfg fs walker n = (.error .indexError, false) := by
  have hc : ¬ (0 ≤ pyIndex n walker.length ∧
      pyIndex n walker.length < (walker.length : Int)) := by
    unfold pyIndex
    rcases h with h | h <;> split <;> omega
  simp [__getitem__, pyListGet, hc]

/-- C7 witness: `get(count())` on a one-sample index raises IndexError. -/
theorem C7_out_of_range_raises_witness :
    __getitem__ { use_cache := false, refresh := false } fsC7
      [("1_1_0").toList] 1 = (.error .indexError, false) :=
  C7_out_of_range_raises { use_cache := false, refresh := false } fsC7
    [("1_1_0").toList] 1 (by decide)

/-- C8: when `.txt` label files already exist in the split and the user
answers "no" (any casing) to the overwrite prompt, `extract_labels` returns
cleanly with the filesystem unchanged: no file is deleted, modified or
created. -/
theorem C8_decline_leaves_files_untouched (fs : FS) (decision : Str)
    (num_threads : Int) (IPA : Bool) (phonemize : Str → Str)
    (hex : fs.txtFiles ≠ []) (hno : pyLower decision = ("no").toList) :
    extract_labels fs decision num_threads IPA phonemize = .ok fs := by
  have h1 : fs.txtFiles.isEmpty = false := by
    cases h : fs.txtFiles
    · exact absurd h hex
    · rfl
  simp [extract_labels, h1, hno]

/-- C8 witness: declining with "No" on a split with an existing label file
returns the split byte-for-byte unchanged. -/
theorem C8_decline_leaves_files_untouched_witness :
    extract_labels fsC8 (("No").toList) 0 false id = .ok fsC8 :=
  C8_decline_leaves_files_untouched fsC8 (("No").toList) 0 false id
    (by decide) (by decide)

/-- C9: with `use_cache = True` and `refresh = False`, a well-formed
identifier whose cached record is absent makes `load_librispeech_item` fail
with the cache loader's FileNotFoundError; the audio decoder is never
invoked and there is no fallback to fresh assembly. -/
theorem C9_cache_miss_no_fallback (fs : FS) (fileid sp ch u : Str)
    (hsplit : splitOnChar '_' fileid = [sp, ch, u])
    (hmiss : alistGet fs.ptFiles (sp, ch, fileid ++ (".pt").toList) = none) :
    load_librispeech_item { use_cache := true, refresh := false } fs fileid =
      (.error .fileNotFoundError, false) := by
  unfold load_librispeech_item
  rw [hsplit]
  simp at hmiss
  simp [hmiss]

/-- C9 witness: identifier `1_1_0` on a split with audio and transcript but
an empty cache fails without decoding. -/
theorem C9_cache_miss_no_fallback_witness :
    load_librispeech_item { use_cache := true, refresh := false } fsC9
      (("1_1_0").toList) = (.error .fileNotFoundError, false) :=
  C9_cache_miss_no_fallback fsC9 (("1_1_0").toList) (("1").toList)
    (("1").toList) (("0").toList) (by decide) (by decide)

/-- C3: assembling a sample with caching enabled (first request with
`refresh = True`, so assembly actually runs and persists the record), then
re-requesting it with caching enabled and refresh disabled, returns the very
same record — equal in every field — and the second request does not invoke
the audio decoder. -/
theorem C3_cache_roundtrip (fs fs' : FS) (fileid : Str) (b : Batch)
    (h : load_librispeech_item { use_cache := true, refresh := true } fs fileid =
      (.ok (b, fs'), true)) :
    load_librispeech_item { use_cache := true, refresh := false } fs' fileid =
      (.ok (b, fs'), false) := by
  unfold load_librispeech_item at h ⊢
  split at h
  next speaker_id chapter_id utterance_id hsp =>
    simp only [Bool.not_true, Bool.and_false, Bool.false_eq_true, if_false] at h
    simp only [Bool.not_false, Bool.and_true, if_true]
    split at h
    next => simp at h
    next af haf =>
      split at h
      next => simp at h
      next contents hcont =>
        split at h
        next e hscan => simp at h
        next utterance hscan =>
          split at h
          next s c u hs hc hu =>
            simp only [if_true, Prod.mk.injEq, Except.ok.injEq] at h
            obtain ⟨⟨rfl, rfl⟩, -⟩ := h
            simp [alistGet_alistInsert_self]
          next hne => simp at h
  next hsp => simp at h

/-- C3 witness: on a one-sample split, the cached re-request returns the
identical record without decoding. -/
theorem C3_cache_roundtrip_witness :
    load_librispeech_item { use_cache := true, refresh := false } fsC3c
      (("1_1_0").toList) = (.ok (bC3, fsC3c), false) :=
  C3_cache_roundtrip fsC3 fsC3c (("1_1_0").toList) bC3 (by decide)

/-- C6: in full mode (`low_resource = False`, `one_hr = False`) the walker is
exactly the extension-stripped names of the `.opus` files under
`audio/*/*/*`, sorted lexicographically, and any re-enumeration of the same
snapshot (the glob may list the same files in any order) constructs the same
ordered identifier sequence. -/
theorem C6_full_mode_sorted_deterministic (fs1 fs2 : FS)
    (hsnap : fs1.audioFiles.Perm fs2.audioFiles) :
    chooseWalker false (PyOneHr.pybool false) fs1 = .ok (fullWalker fs1) ∧
    (fullWalker fs1).Sorted (fun a b : Str => a ≤ b) ∧
    (fullWalker fs1).Perm (opusStems fs1) ∧
    fullWalker fs1 = fullWalker fs2 := by
  refine ⟨rfl, List.sorted_insertionSort _ _, List.perm_insertionSort _ _, ?_⟩
  have hp : (opusStems fs1).Perm (opusStems fs2) :=
    (hsnap.filter _).map _
  exact List.eq_of_perm_of_sorted
    (((List.perm_insertionSort _ _).trans hp).trans
      (List.perm_insertionSort _ _).symm)
    (List.sorted_insertionSort _ _) (List.sorted_insertionSort _ _)

/-- C6 witness: the two enumeration orders of the same two-file snapshot
give one and the same sorted walker. -/
theorem C6_full_mode_sorted_deterministic_witness :
    chooseWalker false (PyOneHr.pybool false) fsC6a = .ok (fullWalker fsC6a) ∧
    (fullWalker fsC6a).Sorted (fun a b : Str => a ≤ b) ∧
    (fullWalker fsC6a).Perm (opusStems fsC6a) ∧
    fullWalker fsC6a = fullWalker fsC6b :=
  C6_full_mode_sorted_deterministic fsC6a fsC6b (by
    simp only [fsC6a, fsC6b]
    exact List.Perm.swap _ _ _)

/-- A bulk transcript line that does not split on tabs into exactly two
parts aborts the whole dictionary build with ValueError, wherever it sits. -/
theorem readLabelLines_bad_line :
    ∀ (lines : List Str) (d : List (Str × Str)),
      (∃ l, l ∈ lines ∧ (splitOnChar '\t' l).length ≠ 2) →
      readLabelLines d lines = .error .valueError := by
  intro lines
  induction lines with
  | nil =>
    intro d h
    rcases h with ⟨l, hl, _⟩
    cases hl
  | cons line rest ih =>
    intro d h
    rcases hsp : splitOnChar '\t' line with _ | ⟨a, _ | ⟨b, _ | ⟨c, tl⟩⟩⟩
    · simp [readLabelLines, hsp]
    · simp [readLabelLines, hsp]
    · rcases h with ⟨l, hl, hlen⟩
      rcases List.mem_cons.mp hl with rfl | hmem
      · rw [hsp] at hlen
        simp at hlen
      · simp only [readLabelLines, hsp]
        exact ih _ ⟨l, hmem, hlen⟩
    · simp [readLabelLines, hsp]

/-- `split(sep, 1)` on `a ++ sep :: b` where `a` is separator-free yields
exactly `[a, b]`. -/
theorem splitFirstOnChar_append (a b : Str) (ha : '\t' ∉ a) :
    splitFirstOnChar '\t' (a ++ '\t' :: b) = [a, b] := by
  induction a with
  | nil => simp [splitFirstOnChar]
  | cons c cs ih =>
    have hc : ¬ c = '\t' := by
      intro hh
      exact ha (hh ▸ List.mem_cons_self c cs)
    have hcs : '\t' ∉ cs := fun hm => ha (List.mem_cons_of_mem c hm)
    rw [List.cons_append]
    simp [splitFirstOnChar, hc, ih hcs]

/-- C10: the two sides of the `identifier<TAB>text` format are parsed
asymmetrically.  Reading the bulk `transcripts.txt`, `extract_labels` splits
each line on every tab and unpacks into exactly two names, so any line with
no tab or with a tab inside its text makes the whole split raise ValueError;
`load_librispeech_item` splits each chapter-transcript line on only the
first tab, so a tab-free identifier is recovered and the utterance keeps any
further tabs. -/
theorem C10_tab_parsing_asymmetry :
    (∀ contents : Str,
      (∃ l, l ∈ readlines contents ∧ (splitOnChar '\t' l).length ≠ 2) →
      readLabels contents = .error .valueError) ∧
    (∀ fileid text line : Str, ∀ rest : List Str, '\t' ∉ fileid →
      pyStrip line = fileid ++ '\t' :: text →
      scanTranscript fileid (line :: rest) = .ok text) := by
  constructor
  · intro contents h
    exact readLabelLines_bad_line (readlines contents) [] h
  · intro fileid text line rest hft hline
    unfold scanTranscript
    rw [hline, splitFirstOnChar_append fileid text hft]
    simp

/-- C10 witness: a text containing a tab kills the bulk read but is accepted
(tabs preserved) by the assembly-time scan. -/
theorem C10_tab_parsing_asymmetry_witness :
    readLabels (("a\tb\tc\n").toList) = .error .valueError ∧
    scanTranscript (("1_1_0").toList) [("1_1_0\tx\ty\n").toList] =
      .ok (("x\ty").toList) :=
  ⟨C10_tab_parsing_asymmetry.1 (("a\tb\tc\n").toList)
      ⟨("a\tb\tc\n").toList, by decide, by decide⟩,
   C10_tab_parsing_asymmetry.2 (("1_1_0").toList) (("x\ty").toList)
      (("1_1_0\tx\ty\n").toList) [] (by decide) (by decide)⟩

/-- A basename with a derived chapter has a three-part sliced name. -/
theorem fileChapterOf_some {f sp ch : Str}
    (h : fileChapterOf f = some (sp, ch)) :
    ∃ u, splitOnChar '_' (labelId f) = [sp, ch, u] := by
  unfold fileChapterOf at h
  rcases hsp : splitOnChar '_' (labelId f) with
    _ | ⟨a, _ | ⟨b, _ | ⟨c, _ | ⟨d, tl⟩⟩⟩⟩ <;> rw [hsp] at h <;> simp at h
  rcases h with ⟨rfl, rfl⟩
  exact ⟨c, rfl⟩

/-- Unpacking of the `goodFile` conditions. -/
theorem goodFile_spec {labels : List (Str × Str)} {f : Str}
    (h : goodFile labels f = true) :
    ∃ sp ch t, fileChapterOf f = some (sp, ch) ∧
      alistGet labels (labelId f) = some t ∧ t ≠ [] ∧
      t.getLast? = some '\n' ∧ '\n' ∉ t.dropLast ∧ '\n' ∉ labelId f := by
  unfold goodFile at h
  rcases hA : fileChapterOf f with _ | ⟨sp, ch⟩ <;> rw [hA] at h
  · simp at h
  · rcases hg : alistGet labels (labelId f) with _ | t <;> rw [hg] at h
    · simp at h
    · simp only [Option.isSome_some, Bool.true_and, Bool.and_eq_true,
        decide_eq_true_eq] at h
      exact ⟨sp, ch, t, rfl, rfl, h.1.1.1, h.1.1.2, h.1.2, h.2⟩

/-- An appended transcript line is never empty. -/
theorem lineFor_ne_nil (labels : List (Str × Str)) (f : Str) :
    lineFor labels f ≠ [] := by
  unfold lineFor
  simp

/-- Effect of one good `_write_labels` step with `IPA = False`: exactly one
append to the file's chapter transcript. -/
theorem write_labels_good {labels : List (Str × Str)} {f : Str}
    (phon : Str → Str) (fs : FS) (h : goodFile labels f = true) :
    _write_labels f labels false phon fs =
      .ok { fs with txtFiles := (appendToFile fs.txtFiles (chapKey f) (lineFor labels f)) } := by
  rcases goodFile_spec h with ⟨sp, ch, t, hA, hg, -, -, -, -⟩
  rcases fileChapterOf_some hA with ⟨u, hsp⟩
  unfold _write_labels
  simp only [hsp, hg]
  unfold chapKey lineFor
  rw [hA, hg]
  simp

/-- Pushing one appended line through `mergeOpt`. -/
theorem mergeOpt_push (o : Option Str) (line rest : Str) (hl : line ≠ []) :
    mergeOpt (some ((o.getD []) ++ line)) rest = mergeOpt o (line ++ rest) := by
  cases o with
  | some old => simp [mergeOpt, List.append_assoc]
  | none =>
    simp only [mergeOpt, Option.getD_none, List.nil_append]
    rw [if_neg]
    simp [hl]

/-- Chapter keys of distinct chapters are distinct transcript-file keys. -/
theorem chapKey_ne {f sp ch s c : Str} (hA : fileChapterOf f = some (s, c))
    (hne : ¬ (s = sp ∧ c = ch)) :
    chapKey f ≠ (sp, ch, transName sp ch) := by
  unfold chapKey
  rw [hA]
  intro hkey
  rcases Prod.mk.injEq .. ▸ hkey with ⟨h1, h2⟩
  rcases Prod.mk.injEq .. ▸ h2 with ⟨h3, _⟩
  exact hne ⟨h1, h3⟩

/-- Unfolding equation of `chapterConcat` on a cons. -/
theorem chapterConcat_cons (labels : List (Str × Str)) (sp ch f : Str)
    (rest : List Str) :
    chapterConcat labels sp ch (f :: rest) =
      if inChapter sp ch f then lineFor labels f ++ chapterConcat labels sp ch rest
      else chapterConcat labels sp ch rest := rfl

/-- The sequential splitter run succeeds on good files and, for every
chapter, appends exactly that chapter's lines (in enumeration order) to the
chapter's transcript file. -/
theorem runSeq_chapter (labels : List (Str × Str)) (phon : Str → Str) :
    ∀ (files : List Str) (fs : FS),
      (∀ f ∈ files, goodFile labels f = true) →
      ∃ fs', runSeq labels false phon files fs = .ok fs' ∧
        ∀ sp ch : Str,
          alistGet fs'.txtFiles (sp, ch, transName sp ch) =
            mergeOpt (alistGet fs.txtFiles (sp, ch, transName sp ch))
              (chapterConcat labels sp ch files) := by
  intro files
  induction files with
  | nil =>
    intro fs _
    refine ⟨fs, rfl, fun sp ch => ?_⟩
    cases h : alistGet fs.txtFiles (sp, ch, transName sp ch) <;>
      simp [chapterConcat, mergeOpt, h]
  | cons f rest ih =>
    intro fs hgood
    have hf : goodFile labels f = true := hgood f (List.mem_cons_self f rest)
    have hrest : ∀ g ∈ rest, goodFile labels g = true :=
      fun g hg => hgood g (List.mem_cons_of_mem f hg)
    rcases goodFile_spec hf with ⟨s, c, t, hA, -, -, -, -, -⟩
    rcases ih { fs with txtFiles := (appendToFile fs.txtFiles (chapKey f) (lineFor labels f)) }
      hrest with ⟨fs', hrun, hchap⟩
    refine ⟨fs', ?_, fun sp ch => ?_⟩
    · unfold runSeq
      rw [write_labels_good phon fs hf]
      exact hrun
    · rw [hchap sp ch]
      have hproj :
          ({ fs with txtFiles :=
              (appendToFile fs.txtFiles (chapKey f) (lineFor labels f)) } : FS).txtFiles =
            appendToFile fs.txtFiles (chapKey f) (lineFor labels f) := rfl
      rw [hproj, chapterConcat_cons]
      by_cases hin : inChapter sp ch f = true
      · have hkey : chapKey f = (sp, ch, transName sp ch) := by
          unfold inChapter at hin
          have hsome : fileChapterOf f = some (sp, ch) := of_decide_eq_true hin
          unfold chapKey
          rw [hsome]
        rw [if_pos hin, hkey, alistGet_appendToFile_self]
        exact mergeOpt_push _ _ _ (lineFor_ne_nil labels f)
      · have hne : ¬ (s = sp ∧ c = ch) := by
          intro hsc
          apply hin
          unfold inChapter
          rw [hsc.1, hsc.2] at hA
          simp [hA]
        have hkey := chapKey_ne hA hne
        rw [if_neg hin, alistGet_appendToFile_ne _ _ _ _ (Ne.symm hkey)]

/-- A good file's appended line is one newline-terminated line. -/
theorem lineFor_wf {labels : List (Str × Str)} {f : Str}
    (h : goodFile labels f = true) :
    ∃ w, lineFor labels f = w ++ ['\n'] ∧ '\n' ∉ w := by
  rcases goodFile_spec h with ⟨sp, ch, t, -, hg, htne, hlast, hdrop, hlid⟩
  refine ⟨labelId f ++ '\t' :: t.dropLast, ?_, ?_⟩
  · unfold lineFor
    rw [hg]
    simp only [Option.getD_some]
    have hlast' : t.getLast htne = '\n' := by
      have hq := List.getLast?_eq_getLast t htne
      rw [hq] at hlast
      exact Option.some.inj hlast
    have ht : t.dropLast ++ ['\n'] = t := by
      rw [← hlast']
      exact List.dropLast_append_getLast htne
    calc labelId f ++ '\t' :: t
        = labelId f ++ '\t' :: (t.dropLast ++ ['\n']) := by rw [ht]
      _ = (labelId f ++ '\t' :: t.dropLast) ++ ['\n'] := by simp
  · intro hmem
    rcases List.mem_append.mp hmem with hm | hm
    · exact hlid hm
    · rcases List.mem_cons.mp hm with he | hm2
      · exact absurd he (by decide)
      · exact hdrop hm2

/-- `readlines` splits off a leading newline-terminated line. -/
theorem readlines_newline_cons (w rest : Str) (hw : '\n' ∉ w) :
    readlines (w ++ '\n' :: rest) = (w ++ ['\n']) :: readlines rest := by
  induction w with
  | nil =>
    show readlines ('\n' :: rest) = ['\n'] :: readlines rest
    simp only [readlines]
    cases h : readlines rest <;> simp
  | cons c cs ih =>
    have hc : ¬ c = '\n' := fun hh => hw (hh ▸ List.mem_cons_self c cs)
    have hcs : '\n' ∉ cs := fun hm => hw (List.mem_cons_of_mem c hm)
    rw [List.cons_append]
    show readlines (c :: (cs ++ '\n' :: rest)) = ((c :: cs) ++ ['\n']) :: readlines rest
    simp only [readlines]
    rw [ih hcs]
    simp [hc]

/-- `readlines` of a concatenation of newline-terminated lines is exactly
that list of lines. -/
theorem readlines_wf_concat :
    ∀ ls : List Str,
      (∀ l ∈ ls, ∃ w, l = w ++ ['\n'] ∧ '\n' ∉ w) →
      readlines (ls.foldr (fun x acc => x ++ acc) []) = ls := by
  intro ls
  induction ls with
  | nil => intro _; rfl
  | cons l rest ih =>
    intro h
    rcases h l (List.mem_cons_self l rest) with ⟨w, hl, hw⟩
    have hrest := fun x hx => h x (List.mem_cons_of_mem l hx)
    rw [List.foldr_cons, hl, List.append_assoc]
    show readlines (w ++ '\n' :: rest.foldr (fun x acc => x ++ acc) []) =
      (w ++ ['\n']) :: rest
    rw [readlines_newline_cons w _ hw, ih hrest]

/-- `chapterConcat` as a fold over the chapter's filtered file list. -/
theorem chapterConcat_eq_foldr (labels : List (Str × Str)) (sp ch : Str) :
    ∀ files : List Str,
      chapterConcat labels sp ch files =
        ((files.filter (inChapter sp ch)).map (lineFor labels)).foldr
          (fun x acc => x ++ acc) [] := by
  intro files
  induction files with
  | nil => rfl
  | cons f rest ih =>
    rw [chapterConcat_cons, List.filter_cons]
    by_cases hin : inChapter sp ch f = true
    · rw [if_pos hin, if_pos hin, List.map_cons, List.foldr_cons, ih]
    · rw [if_neg hin, if_neg hin, ih]

/-- C4: running `extract_labels` sequentially on a fresh split (no label or
cache files yet) whose well-formed bulk mapping covers every enumerated
audio file, when chapter `(sp, ch)` holds exactly the audio files
`[a, b, c]`, leaves that chapter's transcript file with exactly 3 lines,
one per identifier and in enumeration order, each line being the identifier,
a tab, and the bulk mapping's (newline-terminated) text for it. -/
theorem C4_splitter_completeness (fs : FS) (labels : List (Str × Str))
    (decision : Str) (phon : Str → Str) (sp ch a b c : Str)
    (hfresh : fs.txtFiles = []) (_hpt : fs.ptFiles = [])
    (hlab : readLabels fs.transcripts = .ok labels)
    (hgood : ∀ f ∈ globChapterFiles fs, goodFile labels f = true)
    (hK : (globChapterFiles fs).filter (inChapter sp ch) = [a, b, c]) :
    ∃ fs' contents,
      extract_labels fs decision 0 false phon = .ok fs' ∧
      alistGet fs'.txtFiles (sp, ch, transName sp ch) = some contents ∧
      readlines contents =
        [lineFor labels a, lineFor labels b, lineFor labels c] ∧
      (readlines contents).length = 3 := by
  rcases runSeq_chapter labels phon (globChapterFiles fs) fs hgood with
    ⟨fs', hrun, hchap⟩
  have hext : extract_labels fs decision 0 false phon = .ok fs' := by
    unfold extract_labels extractLabelsBody
    rw [hfresh]
    simp only [List.isEmpty_nil, if_true, hlab]
    exact hrun
  have hmemKa : a ∈ globChapterFiles fs := by
    apply List.mem_of_mem_filter (p := inChapter sp ch)
    rw [hK]
    exact List.mem_cons_self ..
  have hmemKb : b ∈ globChapterFiles fs := by
    apply List.mem_of_mem_filter (p := inChapter sp ch)
    rw [hK]
    exact List.mem_cons_of_mem _ (List.mem_cons_self ..)
  have hmemKc : c ∈ globChapterFiles fs := by
    apply List.mem_of_mem_filter (p := inChapter sp ch)
    rw [hK]
    exact List.mem_cons_of_mem _ (List.mem_cons_of_mem _ (List.mem_cons_self ..))
  have hwf : ∀ l ∈ [lineFor labels a, lineFor labels b, lineFor labels c],
      ∃ w, l = w ++ ['\n'] ∧ '\n' ∉ w := by
    intro l hl
    rcases List.mem_cons.mp hl with rfl | hl
    · exact lineFor_wf (hgood a hmemKa)
    rcases List.mem_cons.mp hl with rfl | hl
    · exact lineFor_wf (hgood b hmemKb)
    rcases List.mem_cons.mp hl with rfl | hl
    · exact lineFor_wf (hgood c hmemKc)
    cases hl
  have hcc : chapterConcat labels sp ch (globChapterFiles fs) =
      ([lineFor labels a, lineFor labels b, lineFor labels c]).foldr
        (fun x acc => x ++ acc) [] := by
    rw [chapterConcat_eq_foldr, hK]
    rfl
  have hc := hchap sp ch
  rw [hfresh, hcc] at hc
  have hnil : alistGet ([] : List (FileKey × Str)) (sp, ch, transName sp ch) =
      none := rfl
  rw [hnil] at hc
  have hne : ([lineFor labels a, lineFor labels b, lineFor labels c]).foldr
      (fun x acc => x ++ acc) [] ≠ [] := by
    simp only [List.foldr_cons, List.foldr_nil]
    intro hcontra
    rcases List.append_eq_nil.mp hcontra with ⟨h1, -⟩
    exact lineFor_ne_nil labels a h1
  have hc' : alistGet fs'.txtFiles (sp, ch, transName sp ch) =
      some (([lineFor labels a, lineFor labels b, lineFor labels c]).foldr
        (fun x acc => x ++ acc) []) := by
    rw [hc]
    unfold mergeOpt
    rw [if_neg hne]
  refine ⟨fs', _, hext, hc', ?_, ?_⟩
  · exact readlines_wf_concat _ hwf
  · rw [readlines_wf_concat _ hwf]
    rfl

/-- C4 witness: on the three-file chapter split, the chapter transcript file
ends up with exactly the three expected lines. -/
theorem C4_splitter_completeness_witness :
    ∃ fs' contents,
      extract_labels fsC4 [] 0 false id = .ok fs' ∧
      alistGet fs'.txtFiles
        (("1").toList, ("1").toList, transName ("1").toList ("1").toList) =
        some contents ∧
      readlines contents =
        [lineFor labelsC4 (("1_1_0.opus").toList),
         lineFor labelsC4 (("1_1_1.opus").toList),
         lineFor labelsC4 (("1_1_2.opus").toList)] ∧
      (readlines contents).length = 3 :=
  C4_splitter_completeness fsC4 labelsC4 [] id (("1").toList) (("1").toList)
    (("1_1_0.opus").toList) (("1_1_1.opus").toList) (("1_1_2.opus").toList)
    (by decide) (by decide) (by decide) (by decide) (by decide)
